import Mathlib

set_option linter.unusedVariables false

/-!
Verification of the Tachyon web framework request pipeline
(`tachyon_api/app.py`): type conversion of route parameters, the
dependency-injection resolver (`Tachyon._resolve_dependency`,
`Tachyon._resolve_callable_dependency`), the per-request parameter
resolution loop, response shaping and exception dispatch of the
route `handler` closure created in `Tachyon._add_route`.

The embedding is shallow: Python dictionaries become association
lists, object identity becomes `Nat` instance tokens drawn from a
fresh counter threaded through an explicit state, and the mutable
per-application / per-request caches become fields of that state.
Modules of the repository that are referenced by `app.py` but whose
source is not part of this snapshot (`tachyon_api/utils.py`,
`tachyon_api/responses.py`, `tachyon_api/exceptions.py`,
`tachyon_api/di.py`, `tachyon_api/background.py`) are modelled from
the specification; each such definition says so in its doc comment.
-/

namespace Tachyon

/-- Scalar target types of route-parameter conversion that the claims
exercise (`int`, `str`, `bool` annotations). -/
inductive PType where
  | tInt
  | tStr
  | tBool
deriving DecidableEq, Repr

/-- A parameter annotation as classified by the handler loop:
`typing.get_origin(ann)` distinguishes `List[...]` annotations, and
`TypeUtils.unwrap_optional` splits `Optional[T]` into `T` plus a flag.
`list item itemOpt` stands for `List[item]` / `List[Optional[item]]`. -/
inductive Ann where
  | scalar (t : PType)
  | opt (t : PType)
  | list (item : PType) (itemOpt : Bool)
deriving DecidableEq, Repr

/-- Runtime values flowing through the handler: converted parameter
values, dependency instances (identified by a `Nat` token standing for
Python object identity), decoded body models, and the raw
request / background-tasks objects. -/
inductive Val where
  | vInt (i : Int)
  | vStr (s : String)
  | vBool (b : Bool)
  | vNone
  | vList (xs : List Val)
  | vInst (n : Nat)
  | vStructVal (model : Nat) (tag : Nat)
  | vDict (fields : List (String × Val))
  | vReqObj
  | vBgObj
deriving Repr

/-- Response bodies the pipeline can produce.  `detailJson d` is
`JSONResponse` with a single `detail` field (used by 404s and the
default `HTTPException` rendering); `validationError` is the
structured 422 body with code VALIDATION_ERROR and an optional
per-field error map; `respModelError` is the structured 500 body with
code RESPONSE_VALIDATION_ERROR and only a generic message;
`internalError` is the structured 500 body with code
INTERNAL_SERVER_ERROR; `fromHandler h` is whatever response the
registered exception handler `h` returned; `ok v` is
`TachyonJSONResponse(v)`. -/
inductive RespBody where
  | detailJson (detail : String)
  | validationError (msg : String) (errors : Option (String × List String))
  | respModelError
  | internalError
  | fromHandler (h : Nat)
  | ok (v : Val)
deriving Repr

/-- A wire response: status code, body, response headers. -/
structure Resp where
  status : Nat
  body : RespBody
  headers : List (String × String)
deriving Repr

/-- ASCII whitespace as stripped by Python `str.strip()`. -/
def pyIsSpace (c : Char) : Bool :=
  c == ' ' || c == '\t' || c == '\n' || c == '\r'

/-- Decimal digit test. -/
def pyIsDigit (c : Char) : Bool :=
  '0' ≤ c && c ≤ '9'

/-- Python `str.strip()` (on ASCII whitespace). -/
def pyTrim (s : String) : String :=
  String.mk (((s.data.dropWhile pyIsSpace).reverse.dropWhile pyIsSpace).reverse)

/-- Value of a nonempty all-digit character run, else `none`. -/
def digitsVal (ds : List Char) : Option Nat :=
  if ds.length > 0 && ds.all pyIsDigit then
    some (ds.foldl (fun a c => a * 10 + (c.toNat - 48)) 0)
  else none

/-- Model of Python `int(raw)` on a string argument: surrounding
whitespace is stripped, an optional single leading sign is accepted,
and the remainder must be one or more decimal digits; anything else
raises `ValueError` (here: `none`). -/
def pyParseInt (s : String) : Option Int :=
  match (pyTrim s).data with
  | '-' :: ds => (digitsVal ds).map (fun n => -(n : Int))
  | '+' :: ds => (digitsVal ds).map (fun n => (n : Int))
  | ds => (digitsVal ds).map (fun n => (n : Int))

/-- ASCII lower-casing of one character, as in Python `str.lower()`. -/
def pyCharLower (c : Char) : Char :=
  if 'A' ≤ c && c ≤ 'Z' then Char.ofNat (c.toNat + 32) else c

/-- Python `str.lower()` (on ASCII letters). -/
def pyLower (s : String) : String :=
  String.mk (s.data.map pyCharLower)

/-- Worker for `pySplit`: split a character list at every separator. -/
def pySplitGo (sep : Char) : List Char → List Char → List String
  | [], acc => [String.mk acc.reverse]
  | c :: rest, acc =>
    if c == sep then String.mk acc.reverse :: pySplitGo sep rest []
    else pySplitGo sep rest (c :: acc)

/-- Python `str.split(sep)` for a one-character separator: splitting
the empty string gives `[""]`, and every separator occurrence starts a
new (possibly empty) piece. -/
def pySplit (sep : Char) (s : String) : List String :=
  pySplitGo sep s.data []

/-- Python `sep in s` for a one-character needle. -/
def pyContains (s : String) (c : Char) : Bool :=
  s.data.contains c

/-- Modelled from the spec (`tachyon_api/utils.py` is not in the
snapshot): boolean conversion accepts the case-insensitive set
true/1/t/yes as `True` and anything else as `False`; no error case
exists for booleans. -/
def boolConvert (raw : String) : Bool :=
  ["true", "1", "t", "yes"].contains (pyLower raw)

/-- Modelled from the spec (`tachyon_api/utils.py` is not in the
snapshot): `TypeConverter.convert_value`.  String targets pass the raw
value through, boolean targets use `boolConvert`, integer targets call
the constructor on the raw string; a constructor failure becomes a
404 response when `isPathParam` is true and otherwise a 422
validation-error response with message
"Invalid value for integer conversion". -/
def convert_value (raw : String) (target : PType) (paramName : String)
    (isPathParam : Bool) : Except Resp Val :=
  match target with
  | .tStr => .ok (.vStr raw)
  | .tBool => .ok (.vBool (boolConvert raw))
  | .tInt =>
    match pyParseInt raw with
    | some i => .ok (.vInt i)
    | none =>
      if isPathParam then
        .error ⟨404, .detailJson "Not Found", []⟩
      else
        .error ⟨422, .validationError "Invalid value for integer conversion" none, []⟩

/-- An entry of `Tachyon.dependency_overrides`, classified the way the
resolver classifies it at lines 262-269 of `app.py`: a callable that is
not a class, a class, or a plain (non-callable) value. -/
inductive Override where
  | callableFactory
  | classFactory
  | plainValue (v : Nat)
deriving DecidableEq, Repr

/-- A parameter of a callable dependency, as inspected by
`_resolve_callable_dependency` (lines 343-357 of `app.py`): annotated
with `Request`, defaulted to `Depends(factory)`, defaulted to a bare
`Depends()` with a type annotation, or anything else (which receives
no injected argument). -/
inductive CParam where
  | request
  | dependsCallable (c : Nat)
  | dependsType (t : Nat)
  | plain
deriving DecidableEq, Repr

/-- Process-lifetime application state: `cache` is
`Tachyon._instances_cache` (type token to instance token), `fresh` is
the next unused instance token (Python object identity), `ovCalls`
counts invocations of the override factory registered under each key,
and `cCalls` counts invocations of each callable dependency. -/
structure AppSt where
  cache : List (Nat × Nat)
  fresh : Nat
  ovCalls : Nat → Nat
  cCalls : Nat → Nat

/-- Bump a counter map at one key. -/
def bump (f : Nat → Nat) (k : Nat) : Nat → Nat :=
  fun x => if x = k then f x + 1 else f x

/-- Python dict assignment `d[k] = v` on an insertion-ordered
association list: replace the value in place if the key exists,
otherwise append a new entry. -/
def dictInsert (k v : Nat) : List (Nat × Nat) → List (Nat × Nat)
  | [] => [(k, v)]
  | (k', v') :: rest =>
    if k' = k then (k', v) :: rest else (k', v') :: dictInsert k v rest

/-- The keys of an association list are pairwise distinct (the Python
dict invariant). -/
def keysNodup (l : List (Nat × Nat)) : Prop :=
  (l.map Prod.fst).Nodup

/-- A segment of a msgspec validation-error path: a field name or a
sequence index. -/
inductive PathSeg where
  | fieldName (s : String)
  | index (i : Nat)
deriving DecidableEq, Repr

/-- A `msgspec.ValidationError` raised while decoding a request body:
the message `str(e)` and the error path `e.path` (an empty list models
a falsy / absent path). -/
structure DecodeErr where
  msg : String
  path : List PathSeg
deriving Repr

/-- A failed body decode, distinguished the way the `except` clause at
line 488 of `app.py` distinguishes it: `msgspec.ValidationError`
(schema/type failure, a subclass of `DecodeError`) is caught there,
while a plain `msgspec.DecodeError` (syntactically malformed JSON) is
not a `ValidationError` and propagates out of the parameter loop to
the generic `except Exception` clause. -/
inductive DecodeFailure where
  | validationError (e : DecodeErr)
  | decodeError (msg : String)
deriving Repr

/-- A raised Python exception as seen by the two `except` clauses of
the route handler: the method-resolution order of its class (exact
class first; `isinstance(exc, C)` is `C ∈ mro`), and the
status / detail / headers it carries when it is an `HTTPException`. -/
structure ExcVal where
  mro : List Nat
  status : Nat
  detail : String
  headers : List (String × String)
deriving Repr

/-- Class token of `tachyon_api.exceptions.HTTPException` (modelled
from the spec; `exceptions.py` is not in the snapshot: it carries a
status code, a detail message and optional headers). -/
def HTTPExceptionId : Nat := 0

/-- Class token of the built-in `Exception` class. -/
def exceptionClsId : Nat := 1

/-- Class token of the built-in `TypeError` class. -/
def typeErrorClsId : Nat := 2

/-- Class token of `msgspec.DecodeError`. -/
def decodeErrorClsId : Nat := 4

/-- The plain `msgspec.DecodeError` raised on syntactically malformed
JSON (its mro is DecodeError, then Exception; it is not an
`HTTPException` and, when raised, it is not caught by the
`except msgspec.ValidationError` clause at line 488 of `app.py`). -/
def msgspecDecodeErrorExc (msg : String) : ExcVal :=
  ⟨[decodeErrorClsId, exceptionClsId], 0, msg, []⟩

/-- The `TypeError` raised at line 281 of `app.py` when a
non-injectable class cannot be constructed without arguments. -/
def typeErrorExc (cls : Nat) : ExcVal :=
  ⟨[typeErrorClsId, exceptionClsId], 0, "Cannot resolve dependency", []⟩

/-- What a handler (endpoint function) returned: a pre-built response
object, or a plain value to be shaped. -/
inductive HPayload where
  | response (r : Resp)
  | value (v : Val)
deriving Repr

/-- Outcome of invoking the endpoint function: a normal return or a
raised exception. -/
inductive EndpointResult where
  | ret (p : HPayload)
  | raiseExc (exc : ExcVal)
deriving Repr

/-- Static environment of the resolver: `ovType` / `ovCallable` are the
two kinds of keys of `Tachyon.dependency_overrides`; `registry` is
membership in the `@injectable` registry `_registry` (modelled from the
spec, `tachyon_api/di.py` is not in the snapshot); `ctorParams` gives
the constructor parameter annotations of an injectable class;
`ctorFails` says whether zero-argument construction of a
non-injectable class raises `TypeError`; `cParams` gives the inspected
signature of a callable dependency.  The remaining fields abstract the
external collaborators used by the route handler: `decode` is
`msgspec.json.Decoder(model).decode`, `convertModel` is
`msgspec.convert(payload, response_model)`, `toBuiltins` is
`msgspec.to_builtins` on a decoded model instance, and `endpoint` is
the endpoint function itself, invoked with the assembled keyword
arguments. -/
structure Env where
  ovType : Nat → Option Override
  ovCallable : Nat → Option Override
  registry : Nat → Bool
  ctorParams : Nat → List Nat
  ctorFails : Nat → Bool
  cParams : Nat → List CParam
  decode : Nat → String → Except DecodeFailure Val
  convertModel : Nat → Val → Except String Val
  toBuiltins : Nat → Nat → Val
  endpoint : List (String × Val) → EndpointResult

/-- Errors that propagate as raised Python exceptions out of the
resolver: the `TypeError` of line 281 of `app.py` ("Cannot resolve
dependency ... Did you forget to mark it with @injectable?"), or
exhaustion of the recursion fuel (an artifact of the embedding; the
source recursion is unbounded). -/
inductive RErr where
  | fuelOut
  | notInjectable (cls : Nat)
deriving DecidableEq, Repr

mutual

/-- `Tachyon._resolve_dependency` (lines 237-298 of `app.py`): check
overrides, then the singleton instance cache, then try zero-argument
construction for unregistered classes, else recursively resolve the
constructor parameters, construct, and cache the new instance. -/
def resolveDep (env : Env) (fuel : Nat) (cls : Nat) (app : AppSt) :
    Except RErr (Nat × AppSt) :=
  match fuel with
  | 0 => .error .fuelOut
  | fuel' + 1 =>
    match env.ovType cls with
    | some .callableFactory =>
      .ok (app.fresh, { app with fresh := app.fresh + 1, ovCalls := bump app.ovCalls cls })
    | some .classFactory =>
      .ok (app.fresh, { app with fresh := app.fresh + 1, ovCalls := bump app.ovCalls cls })
    | some (.plainValue v) => .ok (v, app)
    | none =>
      match app.cache.lookup cls with
      | some inst => .ok (inst, app)
      | none =>
        if env.registry cls then
          match resolveDepList env fuel' (env.ctorParams cls) app with
          | .error e => .error e
          | .ok (_, app') =>
            .ok (app'.fresh,
              { app' with fresh := app'.fresh + 1, cache := dictInsert cls app'.fresh app'.cache })
        else
          if env.ctorFails cls then .error (.notInjectable cls)
          else .ok (app.fresh, { app with fresh := app.fresh + 1 })
termination_by (fuel, 0, 0)

/-- The recursive resolution of a constructor parameter list performed
by the loop at lines 291-293 of `app.py`. -/
def resolveDepList (env : Env) (fuel : Nat) (ps : List Nat) (app : AppSt) :
    Except RErr (List Nat × AppSt) :=
  match ps with
  | [] => .ok ([], app)
  | p :: rest =>
    match resolveDep env fuel p app with
    | .error e => .error e
    | .ok (v, app') =>
      match resolveDepList env fuel rest app' with
      | .error e => .error e
      | .ok (vs, app'') => .ok (v :: vs, app'')
termination_by (fuel, 1, ps.length)

/-- `Tachyon._resolve_callable_dependency` (lines 300-368 of
`app.py`): check overrides (an override that is callable is invoked,
otherwise returned verbatim), then the per-request cache, else resolve
the nested parameters, invoke the callable, and cache the result in
the per-request cache.  Invoking a callable is abstracted as drawing a
fresh instance token and bumping its invocation counter. -/
def resolveCallable (env : Env) (fuel : Nat) (c : Nat)
    (depCache : List (Nat × Nat)) (app : AppSt) :
    Except RErr (Nat × List (Nat × Nat) × AppSt) :=
  match fuel with
  | 0 => .error .fuelOut
  | fuel' + 1 =>
    match env.ovCallable c with
    | some .callableFactory =>
      .ok (app.fresh, depCache,
           { app with fresh := app.fresh + 1, ovCalls := bump app.ovCalls c })
    | some .classFactory =>
      .ok (app.fresh, depCache,
           { app with fresh := app.fresh + 1, ovCalls := bump app.ovCalls c })
    | some (.plainValue v) => .ok (v, depCache, app)
    | none =>
      match depCache.lookup c with
      | some v => .ok (v, depCache, app)
      | none =>
        match resolveCParams env fuel' (env.cParams c) depCache app with
        | .error e => .error e
        | .ok (depCache', app') =>
          .ok (app'.fresh, dictInsert c app'.fresh depCache',
               { app' with fresh := app'.fresh + 1, cCalls := bump app'.cCalls c })
termination_by (fuel, 0, 0)

/-- The nested-parameter resolution loop at lines 343-357 of `app.py`:
`Request`-annotated parameters receive the request, `Depends(factory)`
parameters recurse through `resolveCallable`, bare `Depends()`
parameters resolve their annotation through `resolveDep`, and other
parameters receive nothing. -/
def resolveCParams (env : Env) (fuel : Nat) (ps : List CParam)
    (depCache : List (Nat × Nat)) (app : AppSt) :
    Except RErr (List (Nat × Nat) × AppSt) :=
  match ps with
  | [] => .ok (depCache, app)
  | .request :: rest => resolveCParams env fuel rest depCache app
  | .plain :: rest => resolveCParams env fuel rest depCache app
  | .dependsCallable c :: rest =>
    match resolveCallable env fuel c depCache app with
    | .error e => .error e
    | .ok (_, depCache', app') => resolveCParams env fuel rest depCache' app'
  | .dependsType t :: rest =>
    match resolveDep env fuel t app with
    | .error e => .error e
    | .ok (_, app') => resolveCParams env fuel rest depCache app'
termination_by (fuel, 1, ps.length)

end

/-- The relevant parts of a transport request object: repeated-key
query retrieval (`query_params.getlist`), single-key query lookup
(`name in query_params` / `query_params[name]`), the matched path
variables, and the raw body bytes returned by `await request.body()`. -/
structure Req where
  queryAll : String → List String
  queryLookup : String → Option String
  pathParams : String → Option String
  bodyBytes : String

/-- Per-request mutable state of the route handler closure: the shared
application state, the per-request callable-dependency cache
(`dependency_cache = {}` at line 430 of `app.py`), the cached raw body
(`_raw_body`), how many times `request.body()` was awaited, and
whether a `BackgroundTasks` instance was created. -/
structure ReqSt where
  app : AppSt
  depCache : List (Nat × Nat)
  rawBody : Option String
  bodyReads : Nat
  bgCreated : Bool

/-- The state a request starts in: fresh per-request caches over the
current application state. -/
def initReqSt (app : AppSt) : ReqSt :=
  ⟨app, [], none, 0, false⟩

/-- Modelled from the spec (`tachyon_api/responses.py` is not in the
snapshot): the structured 422 body with code VALIDATION_ERROR, the
given message, and an optional per-field error map. -/
def validation_error_response (msg : String)
    (errors : Option (String × List String)) : Resp :=
  ⟨422, .validationError msg errors, []⟩

/-- Modelled from the spec (`tachyon_api/responses.py` is not in the
snapshot): the structured 500 body with code RESPONSE_VALIDATION_ERROR
and only a generic message; the `detail` argument (the internal
exception text) is not placed in the client-visible body. -/
def response_validation_error_response (detail : String) : Resp :=
  ⟨500, .respModelError, []⟩

/-- Modelled from the spec (`tachyon_api/responses.py` is not in the
snapshot): the structured 500 body with code INTERNAL_SERVER_ERROR and
the fixed message "Internal Server Error". -/
def internal_server_error_response : Resp :=
  ⟨500, .internalError, []⟩

/-- Lines 494-499 of `app.py`: walk `reversed(path)` and keep the
first element that is a string. -/
def lastStrSeg (path : List PathSeg) : Option String :=
  path.reverse.findSome? fun p =>
    match p with
    | .fieldName s => some s
    | .index _ => none

/-- Lines 489-503 of `app.py`: build the per-field error map from a
msgspec error path.  An empty path is falsy (`if path:`), and so is an
empty field name (`if field_name:`). -/
def fieldErrorsOf (e : DecodeErr) : Option (String × List String) :=
  if e.path = [] then none
  else
    match lastStrSeg e.path with
    | some f => if f = "" then none else some (f, [e.msg])
    | none => none

/-- `raw.split(",") if "," in raw else [raw]` (line 528 of `app.py`). -/
def splitIfComma (s : String) : List String :=
  if pyContains s ',' then pySplit ',' s else [s]

/-- The defensive flattening loop at lines 530-536 of `app.py`: any
comma found inside an already-collected element splits it further. -/
def flattenCsv (vals : List String) : List String :=
  vals.flatMap splitIfComma

/-- The element-conversion loop shared by the `List[T]` query branch
(lines 548-558) and the `List[T]` path branches (lines 682-695 and
730-740) of `app.py`: with an Optional item type an element that is an
empty string or the token "null" (case-insensitive) becomes `None`;
every other element runs through `convert_value`, and the first
failure short-circuits. -/
def convertListValues (vals : List String) (itemT : PType) (itemOpt : Bool)
    (name : String) (isPath : Bool) : Except Resp (List Val) :=
  match vals with
  | [] => .ok []
  | v :: rest =>
    if itemOpt && (v = "" || pyLower v = "null") then
      match convertListValues rest itemT itemOpt name isPath with
      | .error r => .error r
      | .ok cvs => .ok (.vNone :: cvs)
    else
      match convert_value v itemT name isPath with
      | .error r => .error r
      | .ok cv =>
        match convertListValues rest itemT itemOpt name isPath with
        | .error r => .error r
        | .ok cvs => .ok (cv :: cvs)

/-- Lines 484-485 of `app.py`: `if _raw_body is None: _raw_body =
await request.body()` — the body is read once and cached. -/
def readBody (req : Req) (st : ReqSt) : String × ReqSt :=
  match st.rawBody with
  | some b => (b, st)
  | none =>
    (req.bodyBytes,
     { st with rawBody := some req.bodyBytes, bodyReads := st.bodyReads + 1 })

/-- One handler parameter as classified by the dispatch chain of the
per-parameter loop (lines 435-749 of `app.py`): `Request`-annotated,
`BackgroundTasks`-annotated, explicit/implicit dependency, `Body()`,
`Query(...)`, or a path parameter (`explicit` distinguishes `Path()`
from an implicit path variable). -/
inductive ParamSpec where
  | rawRequest (name : String)
  | bgTasks (name : String)
  | dependsCallable (name : String) (c : Nat)
  | dependsType (name : String) (t : Nat)
  | body (name : String) (model : Nat)
  | query (name : String) (ann : Ann) (default : Option Val)
  | path (name : String) (ann : Ann) (explicit : Bool)

/-- How the per-parameter loop stops early: by returning a response
(`return ...` inside the loop body), by a raised exception (the
resolver's `TypeError` or an uncaught `msgspec.DecodeError`) that
propagates to the `except` clauses, or by fuel exhaustion (an artifact
of the embedding).  All carry the request state at that point, because
application-level caches mutated so far persist. -/
inductive LoopExit where
  | resp (r : Resp) (st : ReqSt)
  | raised (exc : ExcVal) (st : ReqSt)
  | fuelOut (st : ReqSt)

/-- The per-parameter resolution loop of the route handler (lines
435-749 of `app.py`), processing `specs` in declaration order and
accumulating the keyword arguments to inject. -/
def processParams (env : Env) (fuel : Nat) (req : Req) :
    List ParamSpec → List (String × Val) → ReqSt →
    Except LoopExit (List (String × Val) × ReqSt)
  | [], acc, st => .ok (acc, st)
  | .rawRequest n :: rest, acc, st =>
    processParams env fuel req rest (acc ++ [(n, .vReqObj)]) st
  | .bgTasks n :: rest, acc, st =>
    processParams env fuel req rest (acc ++ [(n, .vBgObj)])
      { st with bgCreated := true }
  | .dependsCallable n c :: rest, acc, st =>
    match resolveCallable env fuel c st.depCache st.app with
    | .error .fuelOut => .error (.fuelOut st)
    | .error (.notInjectable cls) => .error (.raised (typeErrorExc cls) st)
    | .ok (v, dc, app') =>
      processParams env fuel req rest (acc ++ [(n, .vInst v)])
        { st with depCache := dc, app := app' }
  | .dependsType n t :: rest, acc, st =>
    match resolveDep env fuel t st.app with
    | .error .fuelOut => .error (.fuelOut st)
    | .error (.notInjectable cls) => .error (.raised (typeErrorExc cls) st)
    | .ok (v, app') =>
      processParams env fuel req rest (acc ++ [(n, .vInst v)])
        { st with app := app' }
  | .body n model :: rest, acc, st =>
    let read := readBody req st
    match env.decode model read.1 with
    | .ok v => processParams env fuel req rest (acc ++ [(n, v)]) read.2
    | .error (.validationError e) =>
      .error (.resp (validation_error_response e.msg (fieldErrorsOf e)) read.2)
    | .error (.decodeError m) =>
      .error (.raised (msgspecDecodeErrorExc m) read.2)
  | .query n ann default :: rest, acc, st =>
    match ann with
    | .list itemT itemOpt =>
      let values := req.queryAll n
      let values :=
        if values = [] && (req.queryLookup n).isSome then
          match req.queryLookup n with
          | some raw => splitIfComma raw
          | none => []
        else values
      let values := flattenCsv values
      if values = [] then
        match default with
        | some d => processParams env fuel req rest (acc ++ [(n, d)]) st
        | none =>
          .error (.resp (validation_error_response
            ("Missing required query parameter: " ++ n) none) st)
      else
        match convertListValues values itemT itemOpt n false with
        | .error r => .error (.resp r st)
        | .ok cvs => processParams env fuel req rest (acc ++ [(n, .vList cvs)]) st
    | .scalar t | .opt t =>
      match req.queryLookup n with
      | some s =>
        match convert_value s t n false with
        | .error r => .error (.resp r st)
        | .ok v => processParams env fuel req rest (acc ++ [(n, v)]) st
      | none =>
        match default with
        | some d => processParams env fuel req rest (acc ++ [(n, d)]) st
        | none =>
          .error (.resp (validation_error_response
            ("Missing required query parameter: " ++ n) none) st)
  | .path n ann explicit :: rest, acc, st =>
    match req.pathParams n with
    | some s =>
      match ann with
      | .list itemT itemOpt =>
        let parts := if s = "" then [] else pySplit ',' s
        match convertListValues parts itemT itemOpt n true with
        | .error r => .error (.resp r st)
        | .ok cvs => processParams env fuel req rest (acc ++ [(n, .vList cvs)]) st
      | .scalar t | .opt t =>
        match convert_value s t n true with
        | .error r => .error (.resp r st)
        | .ok v => processParams env fuel req rest (acc ++ [(n, v)]) st
    | none =>
      if explicit then .error (.resp ⟨404, .detailJson "Not Found", []⟩ st)
      else processParams env fuel req rest acc st

/-- Observable ordering of the tail of the route handler: the endpoint
call returning, background-task execution, response-model validation,
Struct-to-JSON conversion, and sending the response. -/
inductive Ev where
  | callEndpoint
  | runBgTasks
  | validateModel
  | structConvert
  | sendResp
deriving DecidableEq, Repr

/-- Lines 772-779 of `app.py`: a Struct payload is converted with
`msgspec.to_builtins`, and Struct values one level inside a dict are
converted likewise. -/
def structToBuiltins (env : Env) (payload : Val) : Val :=
  match payload with
  | .vStructVal m t => env.toBuiltins m t
  | .vDict fields =>
    .vDict (fields.map fun kv =>
      match kv.2 with
      | .vStructVal m t => (kv.1, env.toBuiltins m t)
      | v => (kv.1, v))
  | v => v

/-- Lines 751-781 of `app.py`, after the endpoint call: run background
tasks if any were registered, pass pre-built responses through,
validate against the response model, convert Structs, and send.
Returns the trace of observable events in program order together with
the final response. -/
def handlerTail (env : Env) (responseModel : Option Nat) (bgCreated : Bool)
    (pl : HPayload) : List Ev × Resp :=
  let bgEvs := if bgCreated then [Ev.runBgTasks] else []
  match pl with
  | .response r => (Ev.callEndpoint :: bgEvs ++ [Ev.sendResp], r)
  | .value v =>
    match responseModel with
    | some m =>
      match env.convertModel m v with
      | .error e =>
        (Ev.callEndpoint :: bgEvs ++ [Ev.validateModel, Ev.sendResp],
         response_validation_error_response e)
      | .ok v' =>
        (Ev.callEndpoint :: bgEvs ++ [Ev.validateModel, Ev.structConvert, Ev.sendResp],
         ⟨200, .ok (structToBuiltins env v'), []⟩)
    | none =>
      (Ev.callEndpoint :: bgEvs ++ [Ev.structConvert, Ev.sendResp],
       ⟨200, .ok (structToBuiltins env v), []⟩)

/-- The two `except` clauses of the route handler (lines 783-809 of
`app.py`).  `except HTTPException` catches every instance of
`HTTPException`, looks up a handler registered under exactly the
`HTTPException` class, and otherwise builds the default response from
the carried status, detail and headers.  `except Exception` scans the
registered handlers in insertion order and invokes the first whose
class the error is an instance of, falling back to the structured 500.
`hr h` is the response returned by registered handler `h`. -/
def dispatchException (hr : Nat → Resp) (handlers : List (Nat × Nat))
    (exc : ExcVal) : Resp :=
  if HTTPExceptionId ∈ exc.mro then
    match handlers.lookup HTTPExceptionId with
    | some h => hr h
    | none => ⟨exc.status, .detailJson exc.detail, exc.headers⟩
  else
    match handlers.find? (fun p => exc.mro.contains p.1) with
    | some p => hr p.2
    | none => internal_server_error_response

/-- Registration data of one route: the classified parameter list and
the declared response model. -/
structure RouteCfg where
  params : List ParamSpec
  responseModel : Option Nat

/-- The whole route handler closure created by `Tachyon._add_route`
(lines 415-809 of `app.py`): run the parameter loop, invoke the
endpoint, shape the response, and map raised exceptions through the
`except` clauses.  Returns `none` only on fuel exhaustion (an artifact
of the embedding).  The result carries the final response, the
application state after the request, and the observable event trace of
the handler tail. -/
def handleRequest (env : Env) (hr : Nat → Resp) (handlers : List (Nat × Nat))
    (cfg : RouteCfg) (fuel : Nat) (req : Req) (app : AppSt) :
    Option (Resp × AppSt × List Ev) :=
  match processParams env fuel req cfg.params [] (initReqSt app) with
  | .error (.resp r st) => some (r, st.app, [])
  | .error (.fuelOut st) => none
  | .error (.raised exc st) =>
    some (dispatchException hr handlers exc, st.app, [])
  | .ok (kwargs, st) =>
    match env.endpoint kwargs with
    | .raiseExc exc =>
      some (dispatchException hr handlers exc, st.app, [Ev.callEndpoint])
    | .ret pl =>
      let tail := handlerTail env cfg.responseModel st.bgCreated pl
      some (tail.2, st.app, tail.1)

/-- A trivial environment used to instantiate theorems at concrete
inputs: no overrides, no injectables, decoding always fails, the
endpoint returns `None`. -/
def env0 : Env :=
  ⟨fun _ => none, fun _ => none, fun _ => false, fun _ => [], fun _ => false,
   fun _ => [], fun _ _ => .error (.validationError ⟨"bad", []⟩), fun _ v => .ok v,
   fun _ _ => .vNone, fun _ => .ret (.value .vNone)⟩

/-- A concrete per-handler response map for exception handlers. -/
def hr0 : Nat → Resp :=
  fun h => ⟨418, .fromHandler h, []⟩

/-- The empty application state. -/
def app0 : AppSt :=
  ⟨[], 0, fun _ => 0, fun _ => 0⟩

/-- A request whose every query and path parameter is the string
"abc". -/
def reqAbc : Req :=
  ⟨fun _ => [], fun _ => some "abc", fun _ => some "abc", ""⟩

lemma resolveDep_zero (env : Env) (cls : Nat) (app : AppSt) :
    resolveDep env 0 cls app = .error .fuelOut := by
  rw [resolveDep]

lemma resolveDep_succ (env : Env) (fuel cls : Nat) (app : AppSt) :
    resolveDep env (fuel + 1) cls app =
      (match env.ovType cls with
       | some .callableFactory =>
         .ok (app.fresh, { app with fresh := app.fresh + 1, ovCalls := bump app.ovCalls cls })
       | some .classFactory =>
         .ok (app.fresh, { app with fresh := app.fresh + 1, ovCalls := bump app.ovCalls cls })
       | some (.plainValue v) => .ok (v, app)
       | none =>
         match app.cache.lookup cls with
         | some inst => .ok (inst, app)
         | none =>
           if env.registry cls then
             match resolveDepList env fuel (env.ctorParams cls) app with
             | .error e => .error e
             | .ok (_, app') =>
               .ok (app'.fresh,
                 { app' with fresh := app'.fresh + 1, cache := dictInsert cls app'.fresh app'.cache })
           else
             if env.ctorFails cls then .error (.notInjectable cls)
             else .ok (app.fresh, { app with fresh := app.fresh + 1 })) := by
  rw [resolveDep]

lemma resolveDepList_nil (env : Env) (fuel : Nat) (app : AppSt) :
    resolveDepList env fuel [] app = .ok ([], app) := by
  rw [resolveDepList]

lemma resolveDepList_cons (env : Env) (fuel p : Nat) (rest : List Nat) (app : AppSt) :
    resolveDepList env fuel (p :: rest) app =
      (match resolveDep env fuel p app with
       | .error e => .error e
       | .ok (v, app') =>
         match resolveDepList env fuel rest app' with
         | .error e => .error e
         | .ok (vs, app'') => .ok (v :: vs, app'')) := by
  rw [resolveDepList]

lemma resolveCallable_zero (env : Env) (c : Nat) (dc : List (Nat × Nat)) (app : AppSt) :
    resolveCallable env 0 c dc app = .error .fuelOut := by
  rw [resolveCallable]

lemma resolveCallable_succ (env : Env) (fuel c : Nat) (dc : List (Nat × Nat)) (app : AppSt) :
    resolveCallable env (fuel + 1) c dc app =
      (match env.ovCallable c with
       | some .callableFactory =>
         .ok (app.fresh, dc, { app with fresh := app.fresh + 1, ovCalls := bump app.ovCalls c })
       | some .classFactory =>
         .ok (app.fresh, dc, { app with fresh := app.fresh + 1, ovCalls := bump app.ovCalls c })
       | some (.plainValue v) => .ok (v, dc, app)
       | none =>
         match dc.lookup c with
         | some v => .ok (v, dc, app)
         | none =>
           match resolveCParams env fuel (env.cParams c) dc app with
           | .error e => .error e
           | .ok (dc', app') =>
             .ok (app'.fresh, dictInsert c app'.fresh dc',
               { app' with fresh := app'.fresh + 1, cCalls := bump app'.cCalls c })) := by
  rw [resolveCallable]

lemma resolveCParams_nil (env : Env) (fuel : Nat) (dc : List (Nat × Nat)) (app : AppSt) :
    resolveCParams env fuel [] dc app = .ok (dc, app) := by
  rw [resolveCParams]

lemma resolveCParams_request (env : Env) (fuel : Nat) (rest : List CParam)
    (dc : List (Nat × Nat)) (app : AppSt) :
    resolveCParams env fuel (.request :: rest) dc app
      = resolveCParams env fuel rest dc app := by
  rw [resolveCParams]

lemma resolveCParams_plain (env : Env) (fuel : Nat) (rest : List CParam)
    (dc : List (Nat × Nat)) (app : AppSt) :
    resolveCParams env fuel (.plain :: rest) dc app
      = resolveCParams env fuel rest dc app := by
  rw [resolveCParams]

lemma resolveCParams_callable (env : Env) (fuel c : Nat) (rest : List CParam)
    (dc : List (Nat × Nat)) (app : AppSt) :
    resolveCParams env fuel (.dependsCallable c :: rest) dc app =
      (match resolveCallable env fuel c dc app with
       | .error e => .error e
       | .ok (_, dc', app') => resolveCParams env fuel rest dc' app') := by
  rw [resolveCParams]

lemma resolveCParams_type (env : Env) (fuel t : Nat) (rest : List CParam)
    (dc : List (Nat × Nat)) (app : AppSt) :
    resolveCParams env fuel (.dependsType t :: rest) dc app =
      (match resolveDep env fuel t app with
       | .error e => .error e
       | .ok (_, app') => resolveCParams env fuel rest dc app') := by
  rw [resolveCParams]

/-- C1: a route parameter whose string value fails type conversion
yields 404 (never 422) when it is a path parameter (explicit `Path()`
or implicit placeholder), and 422 (never 404) when it is a `Query`
parameter, both at the converter and through the full route handler. -/
theorem claim_C1 (env : Env) (hr : Nat → Resp) (handlers : List (Nat × Nat))
    (fuel : Nat) (req : Req) (app : AppSt) (s nm : String) (t : PType)
    (ex : Bool) (d : Option Val) (rm : Option Nat) :
    (∀ r, convert_value s t nm true = .error r → r.status = 404 ∧ r.status ≠ 422) ∧
    (∀ r, convert_value s t nm false = .error r → r.status = 422 ∧ r.status ≠ 404) ∧
    (∀ r, convert_value s t nm false = .error r → req.pathParams nm = some s →
      ∃ r', r'.status = 404 ∧ convert_value s t nm true = .error r' ∧
        handleRequest env hr handlers ⟨[.path nm (.scalar t) ex], rm⟩ fuel req app
          = some (r', app, [])) ∧
    (∀ r, convert_value s t nm true = .error r → req.queryLookup nm = some s →
      ∃ r', r'.status = 422 ∧ convert_value s t nm false = .error r' ∧
        handleRequest env hr handlers ⟨[.query nm (.scalar t) d], rm⟩ fuel req app
          = some (r', app, [])) := by
  have hconv : ∀ b r, convert_value s t nm b = .error r →
      pyParseInt s = none ∧ t = .tInt := by
    intro b r h
    cases t with
    | tStr =>
      rw [show convert_value s .tStr nm b = .ok (.vStr s) from rfl] at h
      cases h
    | tBool =>
      rw [show convert_value s .tBool nm b = .ok (.vBool (boolConvert s)) from rfl] at h
      cases h
    | tInt =>
      cases hp : pyParseInt s with
      | some i =>
        unfold convert_value at h
        rw [hp] at h
        cases h
      | none => exact ⟨rfl, rfl⟩
  have e404 : pyParseInt s = none →
      convert_value s .tInt nm true = .error ⟨404, .detailJson "Not Found", []⟩ := by
    intro hp
    unfold convert_value
    rw [hp]
    rfl
  have e422 : pyParseInt s = none →
      convert_value s .tInt nm false
        = .error ⟨422, .validationError "Invalid value for integer conversion" none, []⟩ := by
    intro hp
    unfold convert_value
    rw [hp]
    rfl
  refine ⟨?_, ?_, ?_, ?_⟩
  · intro r h
    obtain ⟨hp, ht⟩ := hconv true r h
    subst ht
    rw [e404 hp] at h
    cases h
    exact ⟨rfl, by decide⟩
  · intro r h
    obtain ⟨hp, ht⟩ := hconv false r h
    subst ht
    rw [e422 hp] at h
    cases h
    exact ⟨rfl, by decide⟩
  · intro r h hpath
    obtain ⟨hp, ht⟩ := hconv false r h
    subst ht
    refine ⟨⟨404, .detailJson "Not Found", []⟩, rfl, e404 hp, ?_⟩
    simp only [handleRequest, processParams, hpath, e404 hp, initReqSt]
  · intro r h hq
    obtain ⟨hp, ht⟩ := hconv true r h
    subst ht
    refine ⟨⟨422, .validationError "Invalid value for integer conversion" none, []⟩,
      rfl, e422 hp, ?_⟩
    simp only [handleRequest, processParams, hq, e422 hp, initReqSt]

/-- Witness for C1 at the concrete malformed value "abc" against an
`int` annotation: the path parameter route yields 404 and the query
parameter route yields 422. -/
theorem claim_C1_witness :
    (((⟨404, .detailJson "Not Found", []⟩ : Resp).status = 404 ∧
      (⟨404, .detailJson "Not Found", []⟩ : Resp).status ≠ 422) ∧
     (∃ r', r'.status = 404 ∧ convert_value "abc" .tInt "item_id" true = .error r' ∧
       handleRequest env0 hr0 [] ⟨[.path "item_id" (.scalar .tInt) true], none⟩ 1 reqAbc app0
         = some (r', app0, [])) ∧
     (∃ r', r'.status = 422 ∧ convert_value "abc" .tInt "item_id" false = .error r' ∧
       handleRequest env0 hr0 [] ⟨[.query "item_id" (.scalar .tInt) none], none⟩ 1 reqAbc app0
         = some (r', app0, []))) := by
  have h := claim_C1 env0 hr0 [] 1 reqAbc app0 "abc" "item_id" .tInt true none none
  have e1 : convert_value "abc" .tInt "item_id" true
      = .error ⟨404, .detailJson "Not Found", []⟩ := rfl
  have e2 : convert_value "abc" .tInt "item_id" false
      = .error ⟨422, .validationError "Invalid value for integer conversion" none, []⟩ := rfl
  exact ⟨h.1 _ e1, h.2.2.1 _ e2 rfl, h.2.2.2 _ e1 rfl⟩

lemma lookup_dictInsert_self (k v : Nat) (l : List (Nat × Nat)) :
    List.lookup k (dictInsert k v l) = some v := by
  induction l with
  | nil => simp [dictInsert, List.lookup]
  | cons hd tl ih =>
    obtain ⟨k', v'⟩ := hd
    by_cases h : k' = k
    · subst h
      simp [dictInsert, List.lookup]
    · simp [dictInsert, h, List.lookup, show (k == k') = false by simp [Ne.symm h], ih]

lemma lookup_dictInsert_other (j k v : Nat) (l : List (Nat × Nat)) (h : j ≠ k) :
    List.lookup j (dictInsert k v l) = List.lookup j l := by
  induction l with
  | nil => simp [dictInsert, List.lookup, show (j == k) = false by simp [h]]
  | cons hd tl ih =>
    obtain ⟨k', v'⟩ := hd
    by_cases h' : k' = k
    · subst h'
      simp [dictInsert, List.lookup, show (j == k') = false by simp [h]]
    · simp [dictInsert, h', List.lookup, ih]

lemma keys_dictInsert (k v : Nat) (l : List (Nat × Nat)) :
    (dictInsert k v l).map Prod.fst =
      if k ∈ l.map Prod.fst then l.map Prod.fst else l.map Prod.fst ++ [k] := by
  induction l with
  | nil => simp [dictInsert]
  | cons hd tl ih =>
    obtain ⟨k', v'⟩ := hd
    by_cases h : k' = k
    · subst h
      simp [dictInsert]
    · simp only [dictInsert, if_neg h, List.map_cons, List.mem_cons]
      rw [ih]
      by_cases hm : k ∈ tl.map Prod.fst
      · simp [hm, Ne.symm h]
      · simp [hm, Ne.symm h]

lemma keysNodup_dictInsert (k v : Nat) (l : List (Nat × Nat)) (h : keysNodup l) :
    keysNodup (dictInsert k v l) := by
  unfold keysNodup at h ⊢
  rw [keys_dictInsert]
  by_cases hm : k ∈ l.map Prod.fst
  · simpa [hm]
  · rw [if_neg hm]
    exact List.Nodup.append h (List.nodup_singleton k)
      (List.disjoint_singleton.mpr hm)

/-- Observational order on application states: cached singleton
entries are preserved, and distinctness of cache keys is preserved. -/
def cacheLe (a b : AppSt) : Prop :=
  (∀ k w, List.lookup k a.cache = some w → List.lookup k b.cache = some w) ∧
  (keysNodup a.cache → keysNodup b.cache)

lemma cacheLe_refl (a : AppSt) : cacheLe a a :=
  ⟨fun _ _ h => h, fun h => h⟩

lemma cacheLe_of_eq (a b : AppSt) (h : b.cache = a.cache) : cacheLe a b :=
  ⟨fun _ _ hw => h ▸ hw, fun hn => h ▸ hn⟩

lemma cacheLe_trans (a b c : AppSt) (h1 : cacheLe a b) (h2 : cacheLe b c) : cacheLe a c :=
  ⟨fun k w hw => h2.1 k w (h1.1 k w hw), fun hn => h2.2 (h1.2 hn)⟩

/-- Every successful step of `Tachyon._resolve_dependency` (and of its
constructor-parameter loop) preserves existing singleton cache entries
and the one-entry-per-type invariant of the cache. -/
lemma depCacheLe (env : Env) : ∀ fuel : Nat,
    (∀ cls app v app', resolveDep env fuel cls app = .ok (v, app') → cacheLe app app') ∧
    (∀ ps app vs app', resolveDepList env fuel ps app = .ok (vs, app') → cacheLe app app') := by
  intro fuel
  induction fuel with
  | zero =>
    constructor
    · intro cls app v app' h
      rw [resolveDep_zero] at h
      cases h
    · intro ps
      induction ps with
      | nil =>
        intro app vs app' h
        rw [resolveDepList_nil] at h
        cases h
        exact cacheLe_refl app
      | cons p rest ih =>
        intro app vs app' h
        rw [resolveDepList_cons, resolveDep_zero] at h
        cases h
  | succ fuel' IH =>
    have hdep : ∀ cls app v app',
        resolveDep env (fuel' + 1) cls app = .ok (v, app') → cacheLe app app' := by
      intro cls app v app' h
      rw [resolveDep_succ] at h
      split at h
      · cases h
        exact cacheLe_of_eq _ _ rfl
      · cases h
        exact cacheLe_of_eq _ _ rfl
      · cases h
        exact cacheLe_refl app
      · split at h
        · cases h
          exact cacheLe_refl app
        · rename_i hnone
          split at h
          · split at h
            · cases h
            · rename_i app₁ hres
              cases h
              have hLe := IH.2 _ _ _ _ hres
              refine ⟨?_, ?_⟩
              · intro k w hw
                have hw1 := hLe.1 k w hw
                have hkne : k ≠ cls := by
                  intro hk
                  subst hk
                  rw [hw] at hnone
                  cases hnone
                show List.lookup k (dictInsert cls app₁.fresh app₁.cache) = some w
                rw [lookup_dictInsert_other k cls app₁.fresh app₁.cache hkne]
                exact hw1
              · intro hn
                exact keysNodup_dictInsert _ _ _ (hLe.2 hn)
          · split at h
            · cases h
            · cases h
              exact cacheLe_of_eq _ _ rfl
    refine ⟨hdep, ?_⟩
    intro ps
    induction ps with
    | nil =>
      intro app vs app' h
      rw [resolveDepList_nil] at h
      cases h
      exact cacheLe_refl app
    | cons p rest ih =>
      intro app vs app' h
      rw [resolveDepList_cons] at h
      split at h
      · cases h
      · rename_i v₁ app₁ hp
        split at h
        · cases h
        · rename_i vs₁ app₂ hrest
          cases h
          exact cacheLe_trans _ _ _ (hdep _ _ _ _ hp) (ih _ _ _ hrest)

/-- An injectable class with an empty constructor parameter list
resolves to a fresh instance which is stored in the singleton cache. -/
lemma resolveDep_leaf (env : Env) (fuel T : Nat) (app : AppSt)
    (hov : env.ovType T = none) (hreg : env.registry T = true)
    (hnone : List.lookup T app.cache = none) (hctor : env.ctorParams T = []) :
    resolveDep env (fuel + 1) T app
      = .ok (app.fresh,
          { app with fresh := app.fresh + 1, cache := dictInsert T app.fresh app.cache }) := by
  rw [resolveDep_succ, hov, hnone, hreg, hctor, resolveDepList_nil]
  rfl

/-- C3: for an injectable type with no active override, a successful
resolution leaves exactly that instance in the singleton cache; every
later resolution of the type — from the state just after, or from any
later application state that still carries the cached entry (as every
resolver step does, by the preservation conjuncts) — returns the
identical instance without changing the state; and the cache keeps at
most one entry per type. -/
theorem claim_C3 (env : Env) (fuel T v : Nat) (app app₁ : AppSt)
    (hov : env.ovType T = none)
    (hreg : env.registry T = true)
    (h1 : resolveDep env fuel T app = .ok (v, app₁)) :
    List.lookup T app₁.cache = some v ∧
    (∀ fuel', resolveDep env (fuel' + 1) T app₁ = .ok (v, app₁)) ∧
    (∀ app₂ fuel', List.lookup T app₂.cache = some v →
      resolveDep env (fuel' + 1) T app₂ = .ok (v, app₂)) ∧
    (∀ k w, List.lookup k app.cache = some w → List.lookup k app₁.cache = some w) ∧
    (keysNodup app.cache → keysNodup app₁.cache) := by
  have hmem : List.lookup T app₁.cache = some v := by
    cases fuel with
    | zero =>
      rw [resolveDep_zero] at h1
      cases h1
    | succ fuel' =>
      rw [resolveDep_succ] at h1
      split at h1
      · rename_i hfac
        rw [hov] at hfac
        cases hfac
      · rename_i hfac
        rw [hov] at hfac
        cases hfac
      · rename_i w hfac
        rw [hov] at hfac
        cases hfac
      · split at h1
        · rename_i inst hhit
          cases h1
          exact hhit
        · rename_i hnone
          split at h1
          · split at h1
            · cases h1
            · rename_i app' hres
              cases h1
              exact lookup_dictInsert_self T app'.fresh app'.cache
          · rename_i hregf
            exact absurd hreg hregf
  have hLe := (depCacheLe env fuel).1 _ _ _ _ h1
  refine ⟨hmem, ?_, ?_, hLe.1, hLe.2⟩
  · intro fuel'
    rw [resolveDep_succ, hov, hmem]
  · intro app₂ fuel' hcc
    rw [resolveDep_succ, hov, hcc]

/-- Environment in which type token 5 is registered injectable with a
dependency-free constructor. -/
def envReg : Env :=
  { env0 with registry := fun t => t == 5 }

/-- The application state after type token 5 has been constructed and
cached once, starting from the empty state. -/
def appReg : AppSt :=
  { app0 with fresh := app0.fresh + 1, cache := dictInsert 5 app0.fresh app0.cache }

/-- Witness for C3 at type token 5: the first resolution constructs
and caches instance `app0.fresh`, and the second resolution returns
the same instance unchanged. -/
theorem claim_C3_witness :
    List.lookup 5 appReg.cache = some app0.fresh ∧
    (∀ fuel', resolveDep envReg (fuel' + 1) 5 appReg = .ok (app0.fresh, appReg)) ∧
    (keysNodup app0.cache → keysNodup appReg.cache) := by
  have h := claim_C3 envReg 1 5 app0.fresh app0 appReg
    rfl rfl (resolveDep_leaf envReg 0 5 app0 rfl rfl rfl rfl)
  exact ⟨h.1, h.2.1, h.2.2.2.2⟩

/-- `Tachyon._resolve_dependency` never invokes callable dependencies:
the per-callable invocation counters are unchanged. -/
lemma depCalls (env : Env) : ∀ fuel : Nat,
    (∀ cls app v app', resolveDep env fuel cls app = .ok (v, app') →
      app'.cCalls = app.cCalls) ∧
    (∀ ps app vs app', resolveDepList env fuel ps app = .ok (vs, app') →
      app'.cCalls = app.cCalls) := by
  intro fuel
  induction fuel with
  | zero =>
    constructor
    · intro cls app v app' h
      rw [resolveDep_zero] at h
      cases h
    · intro ps
      induction ps with
      | nil =>
        intro app vs app' h
        rw [resolveDepList_nil] at h
        cases h
        rfl
      | cons p rest ih =>
        intro app vs app' h
        rw [resolveDepList_cons, resolveDep_zero] at h
        cases h
  | succ fuel' IH =>
    have hdep : ∀ cls app v app',
        resolveDep env (fuel' + 1) cls app = .ok (v, app') → app'.cCalls = app.cCalls := by
      intro cls app v app' h
      rw [resolveDep_succ] at h
      split at h
      · cases h; rfl
      · cases h; rfl
      · cases h; rfl
      · split at h
        · cases h; rfl
        · split at h
          · split at h
            · cases h
            · rename_i app₁ hres
              cases h
              show app₁.cCalls = app.cCalls
              exact IH.2 _ _ _ _ hres
          · split at h
            · cases h
            · cases h; rfl
    refine ⟨hdep, ?_⟩
    intro ps
    induction ps with
    | nil =>
      intro app vs app' h
      rw [resolveDepList_nil] at h
      cases h
      rfl
    | cons p rest ih =>
      intro app vs app' h
      rw [resolveDepList_cons] at h
      split at h
      · cases h
      · rename_i v₁ app₁ hp
        split at h
        · cases h
        · rename_i vs₁ app₂ hrest
          cases h
          rw [ih _ _ _ hrest, hdep _ _ _ _ hp]

/-- Once a callable dependency is present in the per-request cache,
no further resolution step invokes it again: its invocation counter is
unchanged and its cache entry survives. -/
lemma callStable (env : Env) (c : Nat) (hov : env.ovCallable c = none) : ∀ fuel : Nat,
    (∀ x dc app v dc' app', resolveCallable env fuel x dc app = .ok (v, dc', app') →
      (List.lookup c dc).isSome = true →
      app'.cCalls c = app.cCalls c ∧ (List.lookup c dc').isSome = true) ∧
    (∀ ps dc app dc' app', resolveCParams env fuel ps dc app = .ok (dc', app') →
      (List.lookup c dc).isSome = true →
      app'.cCalls c = app.cCalls c ∧ (List.lookup c dc').isSome = true) := by
  intro fuel
  induction fuel with
  | zero =>
    constructor
    · intro x dc app v dc' app' h
      rw [resolveCallable_zero] at h
      cases h
    · intro ps
      induction ps with
      | nil =>
        intro dc app dc' app' h hc
        rw [resolveCParams_nil] at h
        cases h
        exact ⟨rfl, hc⟩
      | cons p rest ih =>
        intro dc app dc' app' h hc
        cases p with
        | request =>
          rw [resolveCParams_request] at h
          exact ih _ _ _ _ h hc
        | plain =>
          rw [resolveCParams_plain] at h
          exact ih _ _ _ _ h hc
        | dependsCallable x =>
          rw [resolveCParams_callable, resolveCallable_zero] at h
          cases h
        | dependsType t =>
          rw [resolveCParams_type, resolveDep_zero] at h
          cases h
  | succ fuel' IH =>
    have hcall : ∀ x dc app v dc' app',
        resolveCallable env (fuel' + 1) x dc app = .ok (v, dc', app') →
        (List.lookup c dc).isSome = true →
        app'.cCalls c = app.cCalls c ∧ (List.lookup c dc').isSome = true := by
      intro x dc app v dc' app' h hc
      rw [resolveCallable_succ] at h
      split at h
      · cases h
        exact ⟨rfl, hc⟩
      · cases h
        exact ⟨rfl, hc⟩
      · cases h
        exact ⟨rfl, hc⟩
      · split at h
        · cases h
          exact ⟨rfl, hc⟩
        · rename_i hmiss
          split at h
          · cases h
          · rename_i dc₁ app₁ hres
            cases h
            have hxc : x ≠ c := by
              intro hx
              subst hx
              rw [hmiss] at hc
              cases hc
            obtain ⟨hcnt, hmem⟩ := IH.2 _ _ _ _ _ hres hc
            constructor
            · show bump app₁.cCalls x c = app.cCalls c
              rw [← hcnt]
              simp [bump, Ne.symm hxc]
            · show (List.lookup c (dictInsert x app₁.fresh dc₁)).isSome = true
              rw [lookup_dictInsert_other c x app₁.fresh dc₁ (by exact fun hh => hxc hh.symm)]
              exact hmem
    refine ⟨hcall, ?_⟩
    intro ps
    induction ps with
    | nil =>
      intro dc app dc' app' h hc
      rw [resolveCParams_nil] at h
      cases h
      exact ⟨rfl, hc⟩
    | cons p rest ih =>
      intro dc app dc' app' h hc
      cases p with
      | request =>
        rw [resolveCParams_request] at h
        exact ih _ _ _ _ h hc
      | plain =>
        rw [resolveCParams_plain] at h
        exact ih _ _ _ _ h hc
      | dependsCallable x =>
        rw [resolveCParams_callable] at h
        split at h
        · cases h
        · rename_i v₁ dc₁ app₁ hx
          obtain ⟨hcnt, hmem⟩ := hcall _ _ _ _ _ _ hx hc
          obtain ⟨hcnt', hmem'⟩ := ih _ _ _ _ h hmem
          exact ⟨by rw [hcnt', hcnt], hmem'⟩
      | dependsType t =>
        rw [resolveCParams_type] at h
        split at h
        · cases h
        · rename_i v₁ app₁ ht
          obtain ⟨hcnt', hmem'⟩ := ih _ _ _ _ h hc
          refine ⟨?_, hmem'⟩
          rw [hcnt']
          have := (depCalls env (fuel' + 1)).1 _ _ _ _ ht
          rw [this]

lemma readBody_app (req : Req) (st : ReqSt) : (readBody req st).2.app = st.app := by
  cases h : st.rawBody <;> simp [readBody, h]

lemma readBody_depCache (req : Req) (st : ReqSt) :
    (readBody req st).2.depCache = st.depCache := by
  cases h : st.rawBody <;> simp [readBody, h]

/-- A `Query` parameter step either returns a response immediately
(with the request state unchanged) or proceeds to the rest of the loop
with one more keyword argument and the same state. -/
lemma processParams_query_step (env : Env) (fuel : Nat) (req : Req) (n : String)
    (ann : Ann) (default : Option Val) (rest : List ParamSpec)
    (acc : List (String × Val)) (st : ReqSt) :
    (∃ r, processParams env fuel req (.query n ann default :: rest) acc st
        = .error (.resp r st)) ∨
    (∃ acc', processParams env fuel req (.query n ann default :: rest) acc st
        = processParams env fuel req rest acc' st) := by
  cases ann <;> cases default <;> simp only [processParams] <;> repeat' split
  all_goals first
    | exact Or.inl ⟨_, rfl⟩
    | exact Or.inr ⟨_, rfl⟩

/-- A path-parameter step either returns a response immediately (with
the request state unchanged) or proceeds to the rest of the loop with
the same state. -/
lemma processParams_path_step (env : Env) (fuel : Nat) (req : Req) (n : String)
    (ann : Ann) (explicit : Bool) (rest : List ParamSpec)
    (acc : List (String × Val)) (st : ReqSt) :
    (∃ r, processParams env fuel req (.path n ann explicit :: rest) acc st
        = .error (.resp r st)) ∨
    (∃ acc', processParams env fuel req (.path n ann explicit :: rest) acc st
        = processParams env fuel req rest acc' st) := by
  cases ann <;> simp only [processParams] <;> repeat' split
  all_goals first
    | exact Or.inl ⟨_, rfl⟩
    | exact Or.inr ⟨_, rfl⟩

/-- Once a callable dependency is cached for the current request, the
rest of the parameter loop never invokes it again, whatever parameters
remain. -/
lemma loopStable (env : Env) (c : Nat) (hov : env.ovCallable c = none)
    (fuel : Nat) (req : Req) :
    ∀ specs acc st kw st',
      processParams env fuel req specs acc st = .ok (kw, st') →
      (List.lookup c st.depCache).isSome = true →
      st'.app.cCalls c = st.app.cCalls c ∧
        (List.lookup c st'.depCache).isSome = true := by
  intro specs
  induction specs with
  | nil =>
    intro acc st kw st' h hc
    simp only [processParams] at h
    cases h
    exact ⟨rfl, hc⟩
  | cons spec rest ih =>
    intro acc st kw st' h hc
    cases spec with
    | rawRequest n =>
      simp only [processParams] at h
      obtain ⟨h3, h4⟩ := ih _ _ _ _ h hc
      exact ⟨h3, h4⟩
    | bgTasks n =>
      simp only [processParams] at h
      obtain ⟨h3, h4⟩ := ih _ _ _ _ h hc
      exact ⟨h3, h4⟩
    | dependsCallable n x =>
      simp only [processParams] at h
      split at h
      · cases h
      · cases h
      · rename_i v dc app' hx
        obtain ⟨h1, h2⟩ := (callStable env c hov fuel).1 _ _ _ _ _ _ hx hc
        obtain ⟨h3, h4⟩ := ih _ _ _ _ h h2
        exact ⟨by rw [h3]; exact h1, h4⟩
    | dependsType n t =>
      simp only [processParams] at h
      split at h
      · cases h
      · cases h
      · rename_i v app' ht
        obtain ⟨h3, h4⟩ := ih _ _ _ _ h hc
        refine ⟨?_, h4⟩
        rw [h3]
        have := (depCalls env fuel).1 _ _ _ _ ht
        rw [this]
    | body n model =>
      simp only [processParams] at h
      split at h
      · rename_i v hdec
        obtain ⟨h3, h4⟩ := ih _ _ _ _ h (by rw [readBody_depCache]; exact hc)
        refine ⟨?_, h4⟩
        rw [h3, readBody_app]
      · cases h
      · cases h
    | query n ann default =>
      rcases processParams_query_step env fuel req n ann default rest acc st with
        ⟨r, hr⟩ | ⟨acc', ha⟩
      · rw [hr] at h
        cases h
      · rw [ha] at h
        exact ih _ _ _ _ h hc
    | path n ann explicit =>
      rcases processParams_path_step env fuel req n ann explicit rest acc st with
        ⟨r, hr⟩ | ⟨acc', ha⟩
      · rw [hr] at h
        cases h
      · rw [ha] at h
        exact ih _ _ _ _ h hc

/-- A callable dependency with no parameters of its own, not yet in
the per-request cache: it is invoked (counter bumped), and the result
is stored in the per-request cache. -/
lemma resolveCallable_leaf (env : Env) (fuel c : Nat) (dc : List (Nat × Nat))
    (app : AppSt) (hov : env.ovCallable c = none)
    (hmiss : List.lookup c dc = none) (hps : env.cParams c = []) :
    resolveCallable env (fuel + 1) c dc app
      = .ok (app.fresh, dictInsert c app.fresh dc,
          { app with fresh := app.fresh + 1, cCalls := bump app.cCalls c }) := by
  rw [resolveCallable_succ, hov, hmiss, hps, resolveCParams_nil]

/-- C4: a callable dependency with no active override, referenced by
two parameters of the same handler invocation, is invoked exactly once
for that request (both parameters receive the same resolved value);
a second, separate request starts from a fresh per-request cache and
invokes it exactly once more; and in general, once the callable is in
the per-request cache, processing any remaining parameters never
invokes it again. -/
theorem claim_C4 (env : Env) (fuel : Nat) (req : Req) (n1 n2 : String)
    (c : Nat) (app : AppSt)
    (hov : env.ovCallable c = none)
    (hps : env.cParams c = []) :
    (∃ v₁ st₁,
      processParams env (fuel + 1) req
          [.dependsCallable n1 c, .dependsCallable n2 c] [] (initReqSt app)
        = .ok ([(n1, .vInst v₁), (n2, .vInst v₁)], st₁) ∧
      st₁.app.cCalls c = app.cCalls c + 1 ∧
      ∃ v₂ st₂,
        processParams env (fuel + 1) req
            [.dependsCallable n1 c, .dependsCallable n2 c] [] (initReqSt st₁.app)
          = .ok ([(n1, .vInst v₂), (n2, .vInst v₂)], st₂) ∧
        st₂.app.cCalls c = app.cCalls c + 2) ∧
    (∀ specs acc st kw st', (List.lookup c st.depCache).isSome = true →
      processParams env (fuel + 1) req specs acc st = .ok (kw, st') →
      st'.app.cCalls c = st.app.cCalls c) := by
  have hrun : ∀ a : AppSt,
      processParams env (fuel + 1) req
          [.dependsCallable n1 c, .dependsCallable n2 c] [] (initReqSt a)
        = .ok ([(n1, .vInst a.fresh), (n2, .vInst a.fresh)],
            ⟨{ a with fresh := a.fresh + 1, cCalls := bump a.cCalls c },
             dictInsert c a.fresh [], none, 0, false⟩) := by
    intro a
    have s1 := resolveCallable_leaf env fuel c [] a hov rfl hps
    have s2 : resolveCallable env (fuel + 1) c (dictInsert c a.fresh [])
          { a with fresh := a.fresh + 1, cCalls := bump a.cCalls c }
        = .ok (a.fresh, dictInsert c a.fresh [],
            { a with fresh := a.fresh + 1, cCalls := bump a.cCalls c }) := by
      rw [resolveCallable_succ, hov, lookup_dictInsert_self]
    simp only [processParams, initReqSt, s1, s2, List.nil_append, List.cons_append]
  refine ⟨⟨app.fresh, _, hrun app, by simp [bump], ?_⟩, ?_⟩
  · refine ⟨_, _, hrun _, ?_⟩
    show bump (bump app.cCalls c) c c = app.cCalls c + 2
    simp [bump]
  · intro specs acc st kw st' hmem hproc
    exact (loopStable env c hov (fuel + 1) req specs acc st kw st' hproc hmem).1

/-- Witness for C4: callable token 4 with the empty signature, two
parameters of one route, processed against two back-to-back requests
from the empty application state. -/
theorem claim_C4_witness :
    (∃ v₁ st₁,
      processParams env0 1 reqAbc
          [.dependsCallable "a" 4, .dependsCallable "b" 4] [] (initReqSt app0)
        = .ok ([("a", .vInst v₁), ("b", .vInst v₁)], st₁) ∧
      st₁.app.cCalls 4 = app0.cCalls 4 + 1 ∧
      ∃ v₂ st₂,
        processParams env0 1 reqAbc
            [.dependsCallable "a" 4, .dependsCallable "b" 4] [] (initReqSt st₁.app)
          = .ok ([("a", .vInst v₂), ("b", .vInst v₂)], st₂) ∧
        st₂.app.cCalls 4 = app0.cCalls 4 + 2) ∧
    (∀ specs acc st kw st', (List.lookup 4 st.depCache).isSome = true →
      processParams env0 1 reqAbc specs acc st = .ok (kw, st') →
      st'.app.cCalls 4 = st.app.cCalls 4) :=
  claim_C4 env0 0 reqAbc "a" "b" 4 app0 rfl rfl

/-- C10: resolving a type that is neither injectable nor overridden
attempts zero-argument construction; the configuration `TypeError`
("Did you forget to mark it with @injectable?") is raised exactly when
that construction raises `TypeError`, and otherwise each resolution
returns a fresh instance, never stored in the singleton cache, so two
successive resolutions return distinct instances. -/
theorem claim_C10 (env : Env) (fuel cls : Nat) (app : AppSt)
    (hov : env.ovType cls = none)
    (hreg : env.registry cls = false)
    (hcache : app.cache.lookup cls = none) :
    (env.ctorFails cls = true ↔
      resolveDep env (fuel + 1) cls app = .error (.notInjectable cls)) ∧
    (env.ctorFails cls = false →
      resolveDep env (fuel + 1) cls app
        = .ok (app.fresh, { app with fresh := app.fresh + 1 }) ∧
      ({ app with fresh := app.fresh + 1 } : AppSt).cache = app.cache ∧
      resolveDep env (fuel + 1) cls { app with fresh := app.fresh + 1 }
        = .ok (app.fresh + 1, { app with fresh := app.fresh + 2 }) ∧
      app.fresh ≠ app.fresh + 1) := by
  have h : ∀ st : AppSt, st.cache = app.cache →
      resolveDep env (fuel + 1) cls st
        = if env.ctorFails cls then .error (.notInjectable cls)
          else .ok (st.fresh, { st with fresh := st.fresh + 1 }) := by
    intro st hst
    have hc : st.cache.lookup cls = none := by rw [hst, hcache]
    rw [resolveDep_succ, hov, hc, hreg]
    rfl
  constructor
  · constructor
    · intro hf
      rw [h app rfl, hf]
      rfl
    · intro hres
      by_contra hf
      rw [Bool.not_eq_true] at hf
      rw [h app rfl, hf] at hres
      cases hres
  · intro hf
    refine ⟨?_, rfl, ?_, by omega⟩
    · rw [h app rfl, hf]
      rfl
    · rw [h { app with fresh := app.fresh + 1 } rfl, hf]
      rfl

/-- Witness for C10 at a concrete non-injectable type token. -/
theorem claim_C10_witness :
    resolveDep env0 1 7 app0 = .ok (app0.fresh, { app0 with fresh := app0.fresh + 1 }) ∧
    ({ app0 with fresh := app0.fresh + 1 } : AppSt).cache = app0.cache ∧
    resolveDep env0 1 7 { app0 with fresh := app0.fresh + 1 }
      = .ok (app0.fresh + 1, { app0 with fresh := app0.fresh + 2 }) ∧
    app0.fresh ≠ app0.fresh + 1 :=
  (claim_C10 env0 0 7 app0 rfl rfl rfl).2 rfl

/-- C5: with an active override for a type, every resolution invokes
the override factory again and bypasses the singleton cache (the cache
is left untouched, and the invocation counter of the override grows on
every resolution); a plain non-callable override value is returned
verbatim; and once the override is removed, the next resolution
returns the previously cached singleton instance. -/
theorem claim_C5 (env envClr : Env) (fuel T i : Nat) (app : AppSt)
    (hfac : env.ovType T = some .callableFactory ∨ env.ovType T = some .classFactory)
    (hclr : envClr.ovType T = none)
    (hcached : app.cache.lookup T = some i) :
    resolveDep env (fuel + 1) T app
      = .ok (app.fresh, { app with fresh := app.fresh + 1, ovCalls := bump app.ovCalls T }) ∧
    ({ app with fresh := app.fresh + 1, ovCalls := bump app.ovCalls T } : AppSt).cache
      = app.cache ∧
    bump app.ovCalls T T = app.ovCalls T + 1 ∧
    resolveDep env (fuel + 1) T
        { app with fresh := app.fresh + 1, ovCalls := bump app.ovCalls T }
      = .ok (app.fresh + 1,
          { app with fresh := app.fresh + 2, ovCalls := bump (bump app.ovCalls T) T }) ∧
    bump (bump app.ovCalls T) T T = app.ovCalls T + 2 ∧
    (∀ env₂ w, env₂.ovType T = some (.plainValue w) →
      resolveDep env₂ (fuel + 1) T app = .ok (w, app)) ∧
    resolveDep envClr (fuel + 1) T app = .ok (i, app) := by
  have hres : ∀ st : AppSt, resolveDep env (fuel + 1) T st
      = .ok (st.fresh, { st with fresh := st.fresh + 1, ovCalls := bump st.ovCalls T }) := by
    intro st
    rcases hfac with h1 | h1 <;> rw [resolveDep_succ, h1]
  refine ⟨hres app, rfl, by simp [bump], hres _, by simp [bump], ?_, ?_⟩
  · intro env₂ w hw
    rw [resolveDep_succ, hw]
  · rw [resolveDep_succ, hclr, hcached]

/-- Environment with a callable-factory override registered for type
token 3, used to instantiate C5. -/
def envOv : Env :=
  { env0 with ovType := fun t => if t = 3 then some .callableFactory else none }

/-- Application state whose singleton cache already holds instance 9
for type token 3, used to instantiate C5. -/
def appC5 : AppSt :=
  ⟨[(3, 9)], 10, fun _ => 0, fun _ => 0⟩

/-- Witness for C5 at type token 3: the override factory is invoked on
each of two resolutions, the cache is untouched, and after clearing
the override the cached singleton instance 9 is returned. -/
theorem claim_C5_witness :
    resolveDep envOv 1 3 appC5
      = .ok (appC5.fresh,
          { appC5 with fresh := appC5.fresh + 1, ovCalls := bump appC5.ovCalls 3 }) ∧
    ({ appC5 with fresh := appC5.fresh + 1, ovCalls := bump appC5.ovCalls 3 } : AppSt).cache
      = appC5.cache ∧
    bump appC5.ovCalls 3 3 = appC5.ovCalls 3 + 1 ∧
    resolveDep envOv 1 3
        { appC5 with fresh := appC5.fresh + 1, ovCalls := bump appC5.ovCalls 3 }
      = .ok (appC5.fresh + 1,
          { appC5 with fresh := appC5.fresh + 2, ovCalls := bump (bump appC5.ovCalls 3) 3 }) ∧
    bump (bump appC5.ovCalls 3) 3 3 = appC5.ovCalls 3 + 2 ∧
    (∀ env₂ w, env₂.ovType 3 = some (.plainValue w) →
      resolveDep env₂ 1 3 appC5 = .ok (w, appC5)) ∧
    resolveDep env0 1 3 appC5 = .ok (9, appC5) :=
  claim_C5 envOv env0 0 3 9 appC5 (Or.inl rfl) rfl rfl

/-- Through any successful run of the parameter loop, the raw body is
read at most once: the read counter stays at most 1, and it is 0 while
no body has been cached. -/
lemma loopBodyReads (env : Env) (fuel : Nat) (req : Req) :
    ∀ specs acc st kw st',
      processParams env fuel req specs acc st = .ok (kw, st') →
      (st.rawBody = none → st.bodyReads = 0) → st.bodyReads ≤ 1 →
      (st'.rawBody = none → st'.bodyReads = 0) ∧ st'.bodyReads ≤ 1 := by
  intro specs
  induction specs with
  | nil =>
    intro acc st kw st' h h0 h1
    simp only [processParams] at h
    cases h
    exact ⟨h0, h1⟩
  | cons spec rest ih =>
    intro acc st kw st' h h0 h1
    cases spec with
    | rawRequest n =>
      simp only [processParams] at h
      exact ih _ _ _ _ h h0 h1
    | bgTasks n =>
      simp only [processParams] at h
      exact ih _ _ _ _ h h0 h1
    | dependsCallable n x =>
      simp only [processParams] at h
      split at h
      · cases h
      · cases h
      · exact ih _ _ _ _ h h0 h1
    | dependsType n t =>
      simp only [processParams] at h
      split at h
      · cases h
      · cases h
      · exact ih _ _ _ _ h h0 h1
    | body n model =>
      simp only [processParams] at h
      split at h
      · rename_i v hdec
        cases hr : st.rawBody with
        | some b =>
          rw [show readBody req st = (b, st) by simp [readBody, hr]] at h hdec
          exact ih _ _ _ _ h h0 h1
        | none =>
          rw [show readBody req st
              = (req.bodyBytes,
                 { st with rawBody := some req.bodyBytes, bodyReads := st.bodyReads + 1 })
            by simp [readBody, hr]] at h hdec
          refine ih _ _ _ _ h (fun hh => by cases hh) ?_
          show st.bodyReads + 1 ≤ 1
          rw [h0 hr]
      · cases h
      · cases h
    | query n ann default =>
      rcases processParams_query_step env fuel req n ann default rest acc st with
        ⟨r, hr⟩ | ⟨acc', ha⟩
      · rw [hr] at h
        cases h
      · rw [ha] at h
        exact ih _ _ _ _ h h0 h1
    | path n ann explicit =>
      rcases processParams_path_step env fuel req n ann explicit rest acc st with
        ⟨r, hr⟩ | ⟨acc', ha⟩
      · rw [hr] at h
        cases h
      · rw [ha] at h
        exact ih _ _ _ _ h h0 h1

/-- Request fixture for C6: a request carrying only a raw body. -/
def reqBody : Req :=
  ⟨fun _ => [], fun _ => none, fun _ => none, "rawjson"⟩

/-- Environment for C6: model token 1 decodes the body successfully,
model token 2 fails with a schema `ValidationError` ("bad price" at
field path ["price"]), and any other model raises the plain
`msgspec.DecodeError` that syntactically malformed JSON produces. -/
def envC6 : Env :=
  { env0 with decode := fun m _ =>
      if m = 1 then .ok (.vStructVal 1 0)
      else if m = 2 then .error (.validationError ⟨"bad price", [.fieldName "price"]⟩)
      else .error (.decodeError "JSON is malformed") }

/-- C6 (code bug): the claim says every decode/validation failure of a
`Body` parameter produces a 422 ValidationError response, and the
code's own documentation agrees (`params.py` line 69: "Invalid JSON or
validation errors return 422 Unprocessable Entity").  The code does
not: `except msgspec.ValidationError` at line 488 of `app.py` catches
only schema validation errors, so the plain `msgspec.DecodeError`
raised on syntactically malformed JSON propagates to the generic
`except Exception` clause (line 800) and, with no handler registered,
yields the generic 500 INTERNAL_SERVER_ERROR — not a 422 (first
conjunct).  The parts of the claim the code does satisfy are exhibited
alongside: a schema validation failure on the same route yields the
422 carrying the validator's message and the per-field map keyed by
the last string path segment, stopping before the remaining query
parameter (second conjunct), and two `Body` parameters of one request
share a single cached read of the raw body (third conjunct). -/
theorem claim_C6 :
    (handleRequest envC6 hr0 [] ⟨[.body "item" 3], none⟩ 1 reqBody app0
        = some (internal_server_error_response, app0, [])
      ∧ internal_server_error_response.status = 500
      ∧ internal_server_error_response.status ≠ 422) ∧
    (handleRequest envC6 hr0 [] ⟨[.body "item" 2, .query "q" (.scalar .tInt) none], none⟩
          1 reqBody app0
        = some (validation_error_response "bad price" (some ("price", ["bad price"])),
            app0, [])
      ∧ (validation_error_response "bad price" (some ("price", ["bad price"]))).status
          = 422) ∧
    processParams envC6 1 reqBody [.body "a" 1, .body "b" 1] [] (initReqSt app0)
      = .ok ([("a", .vStructVal 1 0), ("b", .vStructVal 1 0)],
          ⟨app0, [], some reqBody.bodyBytes, 1, false⟩) := by
  refine ⟨⟨rfl, rfl, by decide⟩, ⟨?_, rfl⟩, rfl⟩
  have hfe : fieldErrorsOf ⟨"bad price", [.fieldName "price"]⟩
      = some ("price", ["bad price"]) := by decide
  show some (validation_error_response "bad price"
      (fieldErrorsOf ⟨"bad price", [.fieldName "price"]⟩), app0, []) = _
  rw [hfe]

lemma pySplitGo_ne_nil (sep : Char) : ∀ cs acc, pySplitGo sep cs acc ≠ [] := by
  intro cs
  induction cs with
  | nil =>
    intro acc h
    cases h
  | cons c rest ih =>
    intro acc
    by_cases hc : (c == sep) = true
    · simp [pySplitGo, hc]
    · simp only [pySplitGo, hc]
      simp only [Bool.false_eq_true, if_false]
      exact ih _

lemma splitIfComma_ne_nil (s : String) : splitIfComma s ≠ [] := by
  unfold splitIfComma
  split
  · exact pySplitGo_ne_nil ',' s.data []
  · simp

lemma flattenCsv_eq_nil_iff (vals : List String) : flattenCsv vals = [] ↔ vals = [] := by
  cases vals with
  | nil => simp [flattenCsv]
  | cons v vs =>
    simp only [flattenCsv, List.flatMap_cons]
    constructor
    · intro h
      rcases List.append_eq_nil.mp h with ⟨h1, _⟩
      exact absurd h1 (splitIfComma_ne_nil v)
    · intro h
      cases h

lemma convert_value_false_status (s nm : String) (t : PType) (r : Resp)
    (h : convert_value s t nm false = .error r) : r.status = 422 := by
  cases t with
  | tStr =>
    rw [show convert_value s .tStr nm false = .ok (.vStr s) from rfl] at h
    cases h
  | tBool =>
    rw [show convert_value s .tBool nm false = .ok (.vBool (boolConvert s)) from rfl] at h
    cases h
  | tInt =>
    cases hp : pyParseInt s with
    | some i =>
      unfold convert_value at h
      rw [hp] at h
      cases h
    | none =>
      unfold convert_value at h
      rw [hp] at h
      cases h
      rfl

lemma convertListValues_ok_length (itemT : PType) (itemOpt : Bool) (n : String)
    (b : Bool) : ∀ vals cvs,
    convertListValues vals itemT itemOpt n b = .ok cvs → cvs.length = vals.length := by
  intro vals
  induction vals with
  | nil =>
    intro cvs h
    unfold convertListValues at h
    cases h
    rfl
  | cons v vs ih =>
    intro cvs h
    unfold convertListValues at h
    split at h
    · split at h
      · cases h
      · rename_i cvs' hrest
        cases h
        simp [ih _ hrest]
    · split at h
      · cases h
      · split at h
        · cases h
        · rename_i cv hv cvs' hrest
          cases h
          simp [ih _ hrest]

lemma convertListValues_error_decomp (itemT : PType) (itemOpt : Bool) (n : String)
    (b : Bool) : ∀ vals r,
    convertListValues vals itemT itemOpt n b = .error r →
    ∃ pre x post, vals = pre ++ x :: post ∧
      convert_value x itemT n b = .error r ∧
      (∀ u ∈ pre, (itemOpt && (u = "" || pyLower u = "null")) = true ∨
        ∃ cu, convert_value u itemT n b = .ok cu) := by
  intro vals
  induction vals with
  | nil =>
    intro r h
    unfold convertListValues at h
    cases h
  | cons v vs ih =>
    intro r h
    unfold convertListValues at h
    split at h
    · rename_i hnull
      split at h
      · rename_i hrest
        cases h
        obtain ⟨pre, x, post, he, hx, hpre⟩ := ih _ hrest
        refine ⟨v :: pre, x, post, by simp [he], hx, ?_⟩
        intro u hu
        rcases List.mem_cons.mp hu with hu | hu
        · subst hu
          exact Or.inl hnull
        · exact hpre u hu
      · cases h
    · split at h
      · rename_i hv
        cases h
        exact ⟨[], v, vs, rfl, hv, by intro u hu; cases hu⟩
      · rename_i cv hv
        split at h
        · rename_i hrest
          cases h
          obtain ⟨pre, x, post, he, hx, hpre⟩ := ih _ hrest
          refine ⟨v :: pre, x, post, by simp [he], hx, ?_⟩
          intro u hu
          rcases List.mem_cons.mp hu with hu | hu
          · subst hu
            exact Or.inr ⟨cv, hv⟩
          · exact hpre u hu
        · cases h

/-- C7: the `List[T]` query branch gathers values from repeated
occurrences of the name first; with no repeated occurrence the single
value is split on comma; commas inside any collected element are split
again (defensive flattening); with an Optional item type an element
that is empty or "null" (case-insensitive) becomes `None`; the first
element conversion failure short-circuits and becomes the overall 422
result; a wholly missing parameter uses the declared default or yields
the 422 "Missing required query parameter" error when required. -/
theorem claim_C7 (env : Env) (fuel : Nat) (req : Req) (n : String)
    (itemT : PType) (itemOpt : Bool) (default : Option Val)
    (rest : List ParamSpec) (acc : List (String × Val)) (st : ReqSt)
    (d : Val) (raw v : String) (vs vals : List String)
    (r : Resp) (cvs : List Val) :
    (req.queryAll n ≠ [] →
      processParams env fuel req (.query n (.list itemT itemOpt) default :: rest) acc st
        = (match convertListValues (flattenCsv (req.queryAll n)) itemT itemOpt n false with
           | .error r' => .error (.resp r' st)
           | .ok cvs' => processParams env fuel req rest (acc ++ [(n, .vList cvs')]) st)) ∧
    (req.queryAll n = [] → req.queryLookup n = some raw →
      processParams env fuel req (.query n (.list itemT itemOpt) default :: rest) acc st
        = (match convertListValues (flattenCsv (splitIfComma raw)) itemT itemOpt n false with
           | .error r' => .error (.resp r' st)
           | .ok cvs' => processParams env fuel req rest (acc ++ [(n, .vList cvs')]) st)) ∧
    (req.queryAll n = [] → req.queryLookup n = none →
      (default = some d →
        processParams env fuel req (.query n (.list itemT itemOpt) default :: rest) acc st
          = processParams env fuel req rest (acc ++ [(n, d)]) st) ∧
      (default = none →
        processParams env fuel req (.query n (.list itemT itemOpt) default :: rest) acc st
          = .error (.resp (validation_error_response
              ("Missing required query parameter: " ++ n) none) st) ∧
        (validation_error_response ("Missing required query parameter: " ++ n) none).status
          = 422)) ∧
    ((itemOpt && (v = "" || pyLower v = "null")) = true →
      convertListValues (v :: vs) itemT itemOpt n false
        = (match convertListValues vs itemT itemOpt n false with
           | .error r' => .error r'
           | .ok cvs' => .ok (.vNone :: cvs'))) ∧
    (convertListValues vals itemT itemOpt n false = .error r →
      r.status = 422 ∧
      ∃ pre x post, vals = pre ++ x :: post ∧
        convert_value x itemT n false = .error r ∧
        (∀ u ∈ pre, (itemOpt && (u = "" || pyLower u = "null")) = true ∨
          ∃ cu, convert_value u itemT n false = .ok cu)) ∧
    (convertListValues vals itemT itemOpt n false = .ok cvs →
      cvs.length = vals.length) := by
  refine ⟨?_, ?_, ?_, ?_, ?_, ?_⟩
  · intro hne
    have hcond : (decide (req.queryAll n = []) && (req.queryLookup n).isSome) = false := by
      simp [hne]
    have hne2 : ¬ flattenCsv (req.queryAll n) = [] := by
      rw [flattenCsv_eq_nil_iff]
      exact hne
    simp only [processParams, hcond, Bool.false_eq_true, if_false, if_neg hne2]
  · intro hq hl
    have hne2 : ¬ flattenCsv (splitIfComma raw) = [] := by
      rw [flattenCsv_eq_nil_iff]
      exact splitIfComma_ne_nil raw
    simp only [processParams, hq, hl]
    simp [hne2]
  · intro hq hl
    constructor
    · intro hd
      subst hd
      simp only [processParams, hq, hl]
      simp [flattenCsv]
    · intro hd
      subst hd
      refine ⟨?_, rfl⟩
      simp only [processParams, hq, hl]
      simp [flattenCsv]
  · intro hnull
    conv_lhs => rw [convertListValues.eq_def]
    simp only [hnull, if_true]
  · intro herr
    refine ⟨?_, convertListValues_error_decomp itemT itemOpt n false vals r herr⟩
    obtain ⟨pre, x, post, _, hx, _⟩ :=
      convertListValues_error_decomp itemT itemOpt n false vals r herr
    exact convert_value_false_status x n itemT r hx
  · exact convertListValues_ok_length itemT itemOpt n false vals cvs

/-- Request fixture for C7: "tags" occurs twice (one occurrence with
an embedded comma), "ids" occurs once as a comma-separated value. -/
def reqList : Req :=
  ⟨fun nm => if nm = "tags" then ["a,b", "c"] else [],
   fun nm => if nm = "ids" then some "1,2" else none,
   fun _ => none, ""⟩

/-- The 422 conversion-failure response used to instantiate C7. -/
def resp422 : Resp :=
  ⟨422, .validationError "Invalid value for integer conversion" none, []⟩

/-- Witness for C7: repeated occurrences flattened across embedded
commas; a single CSV value split; a missing required parameter
rejected; "NULL" mapped to None under an Optional item; a failing
element short-circuiting with 422; and length preservation. -/
theorem claim_C7_witness :
    processParams env0 1 reqList [.query "tags" (.list .tStr false) none] []
        (initReqSt app0)
      = .ok ([("tags", .vList [.vStr "a", .vStr "b", .vStr "c"])], initReqSt app0) ∧
    processParams env0 1 reqList [.query "ids" (.list .tInt false) none] []
        (initReqSt app0)
      = .ok ([("ids", .vList [.vInt 1, .vInt 2])], initReqSt app0) ∧
    processParams env0 1 reqList [.query "zzz" (.list .tInt false) none] []
        (initReqSt app0)
      = .error (.resp (validation_error_response
          "Missing required query parameter: zzz" none) (initReqSt app0)) ∧
    convertListValues ["NULL", "7"] .tInt true "ids" false
      = .ok [.vNone, .vInt 7] ∧
    (resp422.status = 422 ∧
      ∃ pre x post, (["1", "x", "3"] : List String) = pre ++ x :: post ∧
        convert_value x .tInt "ids" false = .error resp422 ∧
        (∀ u ∈ pre, (false && (u = "" || pyLower u = "null")) = true ∨
          ∃ cu, convert_value u .tInt "ids" false = .ok cu)) ∧
    ([Val.vInt 1, Val.vInt 2].length = (["1", "2"] : List String).length) := by
  refine ⟨?_, ?_, ?_, ?_, ?_, ?_⟩
  · have h := (claim_C7 env0 1 reqList "tags" .tStr false none [] [] (initReqSt app0)
      .vNone "" "" [] [] resp422 []).1 (by decide)
    rw [h]
    rfl
  · have h := (claim_C7 env0 1 reqList "ids" .tInt false none [] [] (initReqSt app0)
      .vNone "1,2" "" [] [] resp422 []).2.1 (by decide) (by decide)
    rw [h]
    rfl
  · have h := ((claim_C7 env0 1 reqList "zzz" .tInt false none [] [] (initReqSt app0)
      .vNone "" "" [] [] resp422 []).2.2.1 (by decide) (by decide)).2 rfl
    exact h.1
  · have h := (claim_C7 env0 1 reqList "ids" .tInt true none [] [] (initReqSt app0)
      .vNone "" "NULL" ["7"] [] resp422 []).2.2.2.1 (by decide)
    rw [h]
    rfl
  · exact (claim_C7 env0 1 reqList "ids" .tInt false none [] [] (initReqSt app0)
      .vNone "" "" [] ["1", "x", "3"] resp422 []).2.2.2.2.1 (by rfl)
  · exact (claim_C7 env0 1 reqList "ids" .tInt false none [] [] (initReqSt app0)
      .vNone "" "" [] ["1", "2"] resp422 [.vInt 1, .vInt 2]).2.2.2.2.2 (by rfl)

/-- C8: when a declared response model rejects a handler return value
that is not a pre-built response, the response is the 500
ResponseValidationError whose body carries only the generic message
and the stable code — it does not depend on the internal exception
text; pre-built response objects bypass the validation entirely. -/
theorem claim_C8 (env : Env) (m : Nat) (v : Val) (bg : Bool) (e : String)
    (hr : Nat → Resp) (handlers : List (Nat × Nat)) (fuel : Nat) (req : Req)
    (app : AppSt)
    (hconv : env.convertModel m v = .error e) :
    (handlerTail env (some m) bg (.value v)).2 = ⟨500, .respModelError, []⟩ ∧
    (∀ e', response_validation_error_response e'
      = response_validation_error_response e) ∧
    (∀ r rm bg', (handlerTail env rm bg' (.response r)).2 = r) ∧
    (env.endpoint [] = .ret (.value v) →
      handleRequest env hr handlers ⟨[], some m⟩ fuel req app
        = some (⟨500, .respModelError, []⟩, app,
            (handlerTail env (some m) false (.value v)).1)) := by
  refine ⟨?_, ?_, ?_, ?_⟩
  · cases bg <;> simp [handlerTail, hconv, response_validation_error_response]
  · intro e'
    rfl
  · intro r rm bg'
    cases rm <;> cases bg' <;> simp [handlerTail]
  · intro hend
    simp only [handleRequest, processParams, initReqSt, hend]
    have h2 : (handlerTail env (some m) false (.value v)).2
        = ⟨500, .respModelError, []⟩ := by
      simp [handlerTail, hconv, response_validation_error_response]
    rw [← h2]

/-- Environment for C8: the endpoint returns `None` and the declared
response model always rejects it with an internal message. -/
def envC8 : Env :=
  { { env0 with convertModel := fun _ _ => .error "int expected, got NoneType" }
    with endpoint := fun _ => .ret (.value .vNone) }

/-- Witness for C8: the concrete rejected return value produces the
generic 500 body through the whole route handler. -/
theorem claim_C8_witness :
    (handlerTail envC8 (some 1) false (.value .vNone)).2
      = ⟨500, .respModelError, []⟩ ∧
    (∀ r rm bg', (handlerTail envC8 rm bg' (.response r)).2 = r) ∧
    handleRequest envC8 hr0 [] ⟨[], some 1⟩ 1 reqAbc app0
      = some (⟨500, .respModelError, []⟩, app0,
          (handlerTail envC8 (some 1) false (.value .vNone)).1) := by
  have h := claim_C8 envC8 1 .vNone false "int expected, got NoneType" hr0 [] 1 reqAbc
    app0 rfl
  exact ⟨h.1, h.2.2.1, h.2.2.2 rfl⟩

/-- Counterexample to C9 as stated: on a route with a declared
response model and a populated BackgroundTasks, the code runs the
queued tasks immediately after the endpoint returns — at trace index
1, before response-model validation at index 2 — so tasks do not
execute after response shaping completes. -/
theorem claim_C9_counterexample :
    (handlerTail env0 (some 1) true (.value .vNone)).1
      = [.callEndpoint, .runBgTasks, .validateModel, .structConvert, .sendResp] ∧
    ¬ (∀ i j,
        (handlerTail env0 (some 1) true (.value .vNone)).1.get? i = some .runBgTasks →
        (handlerTail env0 (some 1) true (.value .vNone)).1.get? j = some .validateModel →
        j < i) := by
  refine ⟨rfl, fun hcl => ?_⟩
  have := hcl 1 2 rfl rfl
  omega

/-- C9 (amended): queued background tasks run immediately after the
handler's return value is captured — before response shaping
(response-model validation and Struct-to-JSON conversion) and before
the response is sent, which all happen in the remaining tail of the
trace. -/
theorem claim_C9 (env : Env) (rm : Option Nat) (pl : HPayload) (m : Nat) (v : Val) :
    ∃ tl, (handlerTail env rm true pl).1 = .callEndpoint :: .runBgTasks :: tl ∧
      Ev.runBgTasks ∉ tl ∧ Ev.callEndpoint ∉ tl ∧
      tl.getLast? = some .sendResp ∧
      (rm = some m → pl = .value v → Ev.validateModel ∈ tl) := by
  cases pl with
  | response r =>
    refine ⟨[.sendResp], by simp [handlerTail], by decide, by decide, rfl, ?_⟩
    intro _ h2
    cases h2
  | value w =>
    cases rm with
    | none =>
      refine ⟨[.structConvert, .sendResp], by simp [handlerTail], by decide, by decide,
        rfl, ?_⟩
      intro h1
      cases h1
    | some m' =>
      cases hconv : env.convertModel m' w with
      | error e =>
        refine ⟨[.validateModel, .sendResp], by simp [handlerTail, hconv], by decide,
          by decide, rfl, ?_⟩
        intro _ _
        simp
      | ok w' =>
        refine ⟨[.validateModel, .structConvert, .sendResp],
          by simp [handlerTail, hconv], by decide, by decide, rfl, ?_⟩
        intro _ _
        simp

/-- Witness for C9 (amended) at the counterexample's configuration. -/
theorem claim_C9_witness :
    ∃ tl, (handlerTail env0 (some 1) true (.value .vNone)).1
        = .callEndpoint :: .runBgTasks :: tl ∧
      Ev.runBgTasks ∉ tl ∧ Ev.callEndpoint ∉ tl ∧
      tl.getLast? = some .sendResp ∧
      (some 1 = some 1 → HPayload.value .vNone = HPayload.value .vNone →
        Ev.validateModel ∈ tl) :=
  claim_C9 env0 (some 1) (.value .vNone) 1 .vNone

lemma find?_of_prefix_false (p : Nat × Nat → Bool) :
    ∀ pre (q : Nat × Nat) post, (∀ x ∈ pre, p x = false) → p q = true →
      (pre ++ q :: post).find? p = some q := by
  intro pre
  induction pre with
  | nil =>
    intro q post _ hq
    simp [List.find?_cons_of_pos, hq]
  | cons a rest ih =>
    intro q post hpre hq
    have ha := hpre a (List.mem_cons_self a rest)
    rw [List.cons_append, List.find?_cons_of_neg _ (by rw [ha]; exact Bool.false_ne_true)]
    exact ih q post (fun x hx => hpre x (List.mem_cons_of_mem a hx)) hq

/-- Counterexample to C2 as stated: with a handler registered for
`Exception` (class token 1) before a handler for the exact class of
the raised error (class token 3), the route handler invokes the
earlier-registered ancestor handler, not the exact-type handler —
exact-type match does not take precedence. -/
theorem claim_C2_counterexample :
    List.lookup 3 [(1, 100), (3, 200)] = some 200 ∧
    dispatchException hr0 [(1, 100), (3, 200)] ⟨[3, 1], 0, "", []⟩ = hr0 100 ∧
    hr0 100 ≠ hr0 200 := by
  refine ⟨rfl, rfl, ?_⟩
  intro h
  simp [hr0] at h

/-- C2 (amended): a raised endpoint error is dispatched by the two
`except` clauses as follows.  For an instance of `HTTPException`, a
handler registered under exactly the `HTTPException` class is invoked
if present, else the default response is built from the carried
status, detail and headers (a handler registered for the error's exact
subclass is not consulted).  For any other error, the first registered
handler in insertion order whose class the error is an instance of —
exact type or ancestor alike, with no precedence for exact types — is
invoked; with no match, the generic structured 500 is produced. -/
theorem claim_C2 (env : Env) (hr : Nat → Resp) (handlers : List (Nat × Nat))
    (fuel : Nat) (req : Req) (app : AppSt) (rm : Option Nat) (exc : ExcVal)
    (hend : env.endpoint [] = .raiseExc exc) :
    handleRequest env hr handlers ⟨[], rm⟩ fuel req app
      = some (dispatchException hr handlers exc, app, [Ev.callEndpoint]) ∧
    (HTTPExceptionId ∈ exc.mro →
      (∀ h, handlers.lookup HTTPExceptionId = some h →
        dispatchException hr handlers exc = hr h) ∧
      (handlers.lookup HTTPExceptionId = none →
        dispatchException hr handlers exc
          = ⟨exc.status, .detailJson exc.detail, exc.headers⟩)) ∧
    (HTTPExceptionId ∉ exc.mro →
      (∀ pre c h' post, handlers = pre ++ (c, h') :: post → c ∈ exc.mro →
        (∀ q ∈ pre, q.1 ∉ exc.mro) →
        dispatchException hr handlers exc = hr h') ∧
      (handlers.find? (fun q => exc.mro.contains q.1) = none →
        dispatchException hr handlers exc = internal_server_error_response ∧
        internal_server_error_response.status = 500)) := by
  refine ⟨?_, ?_, ?_⟩
  · simp only [handleRequest, processParams, initReqSt, hend]
  · intro hmem
    constructor
    · intro h hh
      unfold dispatchException
      rw [if_pos hmem, hh]
    · intro hh
      unfold dispatchException
      rw [if_pos hmem, hh]
  · intro hmem
    constructor
    · intro pre c h' post hh hc hpre
      unfold dispatchException
      rw [if_neg hmem, hh, find?_of_prefix_false _ pre (c, h') post ?_ ?_]
      · intro x hx
        have := hpre x hx
        simpa using this
      · simpa using hc
    · intro hfind
      unfold dispatchException
      rw [if_neg hmem, hfind]
      exact ⟨rfl, rfl⟩

/-- Environment for C2: the endpoint raises an error of class token 3
whose ancestor chain is [3, 1] (its class, then `Exception`); it is
not an `HTTPException`. -/
def envRaise : Env :=
  { env0 with endpoint := fun _ => .raiseExc ⟨[3, 1], 0, "boom", []⟩ }

/-- Environment for the HTTPException half of C2: the endpoint raises
an `HTTPException` carrying status 404. -/
def envRaiseHTTP : Env :=
  { env0 with endpoint := fun _ => .raiseExc ⟨[HTTPExceptionId], 404, "nope", []⟩ }

/-- Witness for C2 (amended): the ValueError-like error is dispatched
to the first registered matching handler (the `Exception` one), and
the `HTTPException` with no registered handler renders its carried
status and detail. -/
theorem claim_C2_witness :
    handleRequest envRaise hr0 [(1, 100), (3, 200)] ⟨[], none⟩ 1 reqAbc app0
      = some (dispatchException hr0 [(1, 100), (3, 200)] ⟨[3, 1], 0, "boom", []⟩,
          app0, [Ev.callEndpoint]) ∧
    dispatchException hr0 [(1, 100), (3, 200)] ⟨[3, 1], 0, "boom", []⟩ = hr0 100 ∧
    dispatchException hr0 [] ⟨[HTTPExceptionId], 404, "nope", []⟩
      = ⟨404, .detailJson "nope", []⟩ := by
  have h1 := claim_C2 envRaise hr0 [(1, 100), (3, 200)] 1 reqAbc app0 none
    ⟨[3, 1], 0, "boom", []⟩ rfl
  have h2 := claim_C2 envRaiseHTTP hr0 [] 1 reqAbc app0 none
    ⟨[HTTPExceptionId], 404, "nope", []⟩ rfl
  refine ⟨h1.1, ?_, ?_⟩
  · exact (h1.2.2 (by decide)).1 [] 1 100 [(3, 200)] rfl (by decide) (by intro q hq; cases hq)
  · exact (h2.2.1 (by decide)).2 rfl

end Tachyon
